import Mathlib

/-!
Verification development for the gitlab-repo-sculptor single-page form
application.  The TypeScript sources (`src/types/gitlab.ts`,
`src/lib/api.ts`, `src/pages/Login.tsx`, `src/pages/CreateProject.tsx`,
and the auth context) are shallowly embedded below: pure computations
become Lean functions, React state updates become explicit state passing,
and the single-threaded event loop (keystrokes, `setTimeout` callbacks,
resolved `fetch` promises) becomes a step function over an explicit event
trace.
-/

/-! ## Data model (`src/types/gitlab.ts`) -/

/-- `GitLabCredentials` from `types/gitlab.ts`. -/
structure GitLabCredentials where
  username : String
  password : String
deriving DecidableEq

/-- `GitLabGroup` from `types/gitlab.ts`: `{id, name, full_path}`. -/
structure GitLabGroup where
  id : Int
  name : String
  full_path : String
deriving DecidableEq

/-- `ServerConfig` from `types/gitlab.ts`; the TS field is called
`namespace`, a Lean keyword, so it is rendered `nspace`. -/
structure ServerConfig where
  nspace : String
deriving DecidableEq

/-- The `projectType` enum of the zod schema in `CreateProject.tsx`. -/
inductive ProjectType where
  | library
  | monorepo
  | microservice
  | delivery
deriving DecidableEq

/-- The `stack` enum of the zod schema in `CreateProject.tsx`. -/
inductive Stack where
  | maven
  | node
  | react
  | spring
  | typescript
  | javascript
  | vue
  | python
  | dotnet
  | csharp
deriving DecidableEq

/-- The `openshiftServers` object: four independently optional keyed
entries `a`..`d`, mirroring the keyed-map shape in `types/gitlab.ts`. -/
structure OpenshiftServers where
  a : Option ServerConfig
  b : Option ServerConfig
  c : Option ServerConfig
  d : Option ServerConfig
deriving DecidableEq

/-- The four deployment-target keys (`servers` array in
`CreateProject.tsx`). -/
inductive ServerKey where
  | a
  | b
  | c
  | d
deriving DecidableEq

/-- Read the entry stored under one key of the `openshiftServers`
object. -/
def OpenshiftServers.get (s : OpenshiftServers) : ServerKey → Option ServerConfig
  | .a => s.a
  | .b => s.b
  | .c => s.c
  | .d => s.d

/-- Replace the entry stored under one key; setting `none` models the
destructuring removal `const { [serverKey]: removed, ...rest }`. -/
def OpenshiftServers.set (s : OpenshiftServers) : ServerKey → Option ServerConfig → OpenshiftServers
  | .a, v => { s with a := v }
  | .b, v => { s with b := v }
  | .c, v => { s with c := v }
  | .d, v => { s with d := v }

/-- The empty `openshiftServers` object `{}`. -/
def OpenshiftServers.empty : OpenshiftServers := ⟨none, none, none, none⟩

/-- A toast notification as emitted through `useToast`. -/
structure Toast where
  title : String
  description : String
  variant : String
deriving DecidableEq

/-! ## JavaScript string semantics

`String.prototype.includes` and `toLowerCase`, embedded over `List Char`
so that the case-insensitive containment test of `displayGroups` is
executable. -/

/-- Whether `p` occurs at the very start of `s` (helper for
`String.prototype.includes`). -/
def hasPfx : List Char → List Char → Bool
  | [], _ => true
  | _ :: _, [] => false
  | p :: ps, c :: cs => p = c && hasPfx ps cs

/-- Whether `p` occurs contiguously anywhere inside `s`
(`String.prototype.includes`). -/
def hasSub (p : List Char) : List Char → Bool
  | [] => hasPfx p []
  | c :: cs => hasPfx p (c :: cs) || hasSub p cs

/-- `s.includes(pat)` for JS strings. -/
def strIncludes (s pat : String) : Bool := hasSub pat.toList s.toList

/-- `s.trim()` for JS strings: drop whitespace from both ends. -/
def jsTrim (s : String) : String :=
  ⟨((s.toList.dropWhile Char.isWhitespace).reverse.dropWhile Char.isWhitespace).reverse⟩

/-! ## The display set (`displayGroups` memo, `CreateProject.tsx` 125-142) -/

/-- The body of `combined.filter((group, index, self) =>
self.findIndex(g => g.id === group.id) === index)`: walk the list with
its running index, keeping an element exactly when the first index in
`self` carrying its `id` is the element's own index. -/
def jsUniqueGo (self : List GitLabGroup) : List GitLabGroup → Nat → List GitLabGroup
  | [], _ => []
  | g :: rest, i =>
    if self.findIdx (fun h => h.id == g.id) = i then
      g :: jsUniqueGo self rest (i + 1)
    else
      jsUniqueGo self rest (i + 1)

/-- The JS index-based deduplication filter applied to `combined`. -/
def jsUniqueFilter (l : List GitLabGroup) : List GitLabGroup :=
  jsUniqueGo l l 0

/-- The `displayGroups` memo: for a term of length at least 3, filter the
common groups by case-insensitive containment of the term in `full_path`,
append the search results, and deduplicate by `id` keeping the first
occurrence; otherwise return the common groups unchanged. -/
def displayGroups (groups searchResults : List GitLabGroup) (searchTerm : String) :
    List GitLabGroup :=
  if 3 ≤ searchTerm.length then
    let commonMatches := groups.filter
      (fun g => strIncludes g.full_path.toLower searchTerm.toLower)
    jsUniqueFilter (commonMatches ++ searchResults)
  else
    groups

/-! ## Specification-side deduplication

Independent rendering of the spec sentence "deduplicate keeping first
occurrence by `id`": keep the head, drop every later element carrying
the head's `id`, recurse. -/

/-- Deduplicate a list of groups by `id`, keeping the first occurrence of
each `id` and preserving order. -/
def dedupFirstById : List GitLabGroup → List GitLabGroup
  | [] => []
  | g :: rest => g :: dedupFirstById (rest.filter (fun h => !(h.id == g.id)))
termination_by l => l.length
decreasing_by
  simp only [List.length_cons]
  exact Nat.lt_succ_of_le (List.length_filter_le _ _)

/-! ## The search cache (`searchCache`, a JS `Map<string, GitLabGroup[]>`)

Embedded as an association list in insertion order; `Map.set` updates an
existing key in place and appends a fresh one. -/

/-- `searchCache.get(k)` / `searchCache.has(k)`. -/
def cacheGet (c : List (String × List GitLabGroup)) (k : String) :
    Option (List GitLabGroup) :=
  match c with
  | [] => none
  | (k', v) :: rest => if k' = k then some v else cacheGet rest k

/-- `searchCache.set(k, v)`: overwrite in place when the key is present,
append otherwise. -/
def cacheSet (c : List (String × List GitLabGroup)) (k : String)
    (v : List GitLabGroup) : List (String × List GitLabGroup) :=
  match c with
  | [] => [(k, v)]
  | (k', v') :: rest =>
    if k' = k then (k, v) :: rest else (k', v') :: cacheSet rest k v

/-! ## Group autocomplete engine as an event loop

`CreateProject.tsx` runs on the single-threaded JS event loop: a
keystroke runs `handleSearchChange` synchronously; `debouncedSearch`
schedules a 300 ms `setTimeout`; a fired timeout runs the callback up to
the `await gitlabApi.searchGroups(...)` suspension; the resumed
continuation runs when the fetch resolves.  Since every timeout uses the
same 300 ms delay, pending timeouts fire in scheduling order (FIFO),
while fetch responses may resolve in any order — the environment picks
which in-flight request resolves next.

Note what `handleSearchChange` does NOT do: `debouncedSearch` returns
`() => clearTimeout(timeoutId)`, but the caller at line 149 discards that
return value, so no previously scheduled timeout is ever cancelled. -/

/-- The state of the `CreateProject` page relevant to search: React state
plus the pending timeouts, the in-flight fetches, and a log of every
remote search call issued. -/
structure EngineState where
  credentials : Option GitLabCredentials
  searchTerm : String
  searchResults : List GitLabGroup
  isSearching : Bool
  cache : List (String × List GitLabGroup)
  timers : List String
  inFlight : List String
  calls : List String
deriving DecidableEq

/-- The engine state right after mount: empty term, results, cache and
queues. -/
def initEngine (credentials : Option GitLabCredentials) : EngineState :=
  { credentials := credentials
    searchTerm := ""
    searchResults := []
    isSearching := false
    cache := []
    timers := []
    inFlight := []
    calls := [] }

/-- `handleSearchChange` (lines 145-154): store the term; for a term of
length at least 3 set the busy flag and schedule a timeout via
`debouncedSearch` (whose cancel closure is discarded); otherwise clear
the results and the busy flag. -/
def handleSearchChange (st : EngineState) (value : String) : EngineState :=
  let st := { st with searchTerm := value }
  if 3 ≤ value.length then
    { st with isSearching := true, timers := st.timers ++ [value] }
  else
    { st with searchResults := [], isSearching := false }

/-- The earliest pending timeout fires and runs the `debouncedSearch`
callback (lines 93-117) up to its `await`: with a long-enough term and a
credential present, a cache hit applies the cached results and clears the
busy flag with no remote call; a cache miss sets the busy flag and issues
one remote search call, which becomes in-flight.  Otherwise the callback
clears the results and the busy flag. -/
def fireTimer (st : EngineState) : EngineState :=
  match st.timers with
  | [] => st
  | term :: rest =>
    let st := { st with timers := rest }
    if 3 ≤ term.length ∧ st.credentials.isSome then
      match cacheGet st.cache term with
      | some cached => { st with searchResults := cached, isSearching := false }
      | none =>
        { st with isSearching := true
                  calls := st.calls ++ [term]
                  inFlight := st.inFlight ++ [term] }
    else
      { st with searchResults := [], isSearching := false }

/-- The `i`-th in-flight fetch resolves and the suspended callback
resumes (lines 104-112): on success the result is written to the cache
under the exact term and applied to `searchResults`; on failure
`searchResults` is cleared; the `finally` clause clears the busy flag in
both cases. -/
def resolveResponse (st : EngineState) (i : Nat)
    (outcome : Except Unit (List GitLabGroup)) : EngineState :=
  match st.inFlight.get? i with
  | none => st
  | some term =>
    let st := { st with inFlight := st.inFlight.eraseIdx i }
    match outcome with
    | .ok results =>
      { st with cache := cacheSet st.cache term results
                searchResults := results
                isSearching := false }
    | .error _ =>
      { st with searchResults := [], isSearching := false }

/-- An event of the page's event loop: a keystroke in the search box, the
earliest pending debounce timeout firing, or an in-flight search
response resolving (successfully or not). -/
inductive EngineEvent where
  | input (value : String)
  | fire
  | response (i : Nat) (outcome : Except Unit (List GitLabGroup))

/-- One step of the event loop. -/
def engineStep (st : EngineState) : EngineEvent → EngineState
  | .input value => handleSearchChange st value
  | .fire => fireTimer st
  | .response i outcome => resolveResponse st i outcome

/-- Run the event loop over a trace of events. -/
def engineRun (st : EngineState) (es : List EngineEvent) : EngineState :=
  es.foldl engineStep st

/-! ## Deployment-target toggling (`toggleServer`, lines 77-88) -/

/-- `toggleServer`: checking a target spreads the current object with a
fresh `{namespace: ''}` entry under the key; unchecking removes the key
by destructuring. -/
def toggleServer (servers : OpenshiftServers) (serverKey : ServerKey)
    (checked : Bool) : OpenshiftServers :=
  if checked then
    servers.set serverKey (some ⟨""⟩)
  else
    servers.set serverKey none

/-! ## The zod schema (`projectSchema`, lines 23-34)

`zodResolver` lets `handleSubmit` invoke `onSubmit` exactly when the
schema accepts the form values.  On the typed form state the enum checks
hold by construction; what remains is `name: min(1)`,
`groupId: min(1)`, optional `stack` with NO cross-field rule, and
`namespace: min(1)` inside each present server entry. -/

/-- The form values held by `useForm`. -/
structure ProjectForm where
  name : String
  groupId : Int
  projectType : ProjectType
  stack : Option Stack
  openshiftServers : Option OpenshiftServers
deriving DecidableEq

/-- The `defaultValues` of `useForm` (lines 55-60): empty name, group 0,
type `library`, no stack, empty server object. -/
def formDefaults : ProjectForm :=
  { name := ""
    groupId := 0
    projectType := .library
    stack := none
    openshiftServers := some OpenshiftServers.empty }

/-- Zod check of one optional server entry: absent passes, present needs
`namespace.min(1)`. -/
def entryValid : Option ServerConfig → Bool
  | none => true
  | some cfg => 1 ≤ cfg.nspace.length

/-- Zod check of the optional `openshiftServers` object. -/
def openshiftServersValid : Option OpenshiftServers → Bool
  | none => true
  | some s => entryValid s.a && entryValid s.b && entryValid s.c && entryValid s.d

/-- Whether `projectSchema` accepts the form values, i.e. whether
`handleSubmit` lets submission proceed to `onSubmit`. -/
def projectSchemaValid (f : ProjectForm) : Bool :=
  (1 ≤ f.name.length) && (1 ≤ f.groupId) && openshiftServersValid f.openshiftServers

/-! ## Loading the common groups (`loadGroups`, lines 164-194) -/

/-- The hard-coded 6-item fallback list (`mockGroups`, lines 176-183). -/
def mockGroups : List GitLabGroup :=
  [ ⟨1, "frontend-team", "company/frontend-team"⟩
  , ⟨2, "backend-team", "company/backend-team"⟩
  , ⟨3, "devops-team", "company/devops-team"⟩
  , ⟨4, "platform-team", "company/platform-team"⟩
  , ⟨5, "mobile-team", "company/mobile-team"⟩
  , ⟨6, "qa-team", "company/qa-team"⟩ ]

/-- The degraded-mode toast emitted on fallback (lines 186-190). -/
def offlineToast : Toast :=
  { title := "Using offline mode"
    description := "Showing sample groups. Backend connection needed for full functionality."
    variant := "default" }

/-- The `CreateProject` page state touched by `loadGroups`. -/
structure LoadState where
  credentials : Option GitLabCredentials
  groups : List GitLabGroup
  loadingGroups : Bool
  toasts : List Toast
  commonCalls : Nat
deriving DecidableEq

/-- `loadGroups`: return early without a credential; otherwise raise the
busy flag and issue the one `getCommonGroups` request, whose outcome the
environment supplies.  Success stores the server list; failure is caught
inside the function — the mock list is stored and the degraded-mode toast
emitted.  The `finally` clause clears the busy flag on both paths, and no
second request is ever issued. -/
def loadGroups (st : LoadState) (remote : Except Unit (List GitLabGroup)) :
    LoadState :=
  match st.credentials with
  | none => st
  | some _ =>
    let st1 := { st with loadingGroups := true, commonCalls := st.commonCalls + 1 }
    match remote with
    | .ok commonGroups => { st1 with groups := commonGroups, loadingGroups := false }
    | .error _ =>
      { st1 with groups := mockGroups
                 toasts := st1.toasts ++ [offlineToast]
                 loadingGroups := false }

/-! ## Submission (`onSubmit`, `CreateProject.tsx` lines 199-238) -/

/-- The outbound `CreateProjectRequest` of `types/gitlab.ts`. -/
structure CreateProjectRequest where
  name : String
  groupId : Int
  projectType : ProjectType
  stack : Option Stack
  openshiftServers : Option OpenshiftServers
  credentials : GitLabCredentials
deriving DecidableEq

/-- One entry of the `validServers` filter (lines 207-211): kept, with
its namespace trimmed, exactly when the namespace is truthy and trims to
a non-empty string. -/
def filterEntry : Option ServerConfig → Option ServerConfig
  | none => none
  | some cfg =>
    if cfg.nspace ≠ "" ∧ jsTrim cfg.nspace ≠ "" then some ⟨jsTrim cfg.nspace⟩ else none

/-- The `validServers` object built from the submitted form data. -/
def buildValidServers : Option OpenshiftServers → OpenshiftServers
  | none => OpenshiftServers.empty
  | some s => ⟨filterEntry s.a, filterEntry s.b, filterEntry s.c, filterEntry s.d⟩

/-- `Object.keys(validServers).length > 0` (line 219). -/
def hasAnyServer (s : OpenshiftServers) : Bool :=
  s.a.isSome || s.b.isSome || s.c.isSome || s.d.isSome

/-- The success toast of `onSubmit` (lines 224-227). -/
def createdToast (name : String) : Toast :=
  { title := "Project created successfully"
    description := name ++ " has been created with all configurations"
    variant := "default" }

/-- The failure toast of `onSubmit` (lines 230-234). -/
def failedToast : Toast :=
  { title := "Failed to create project"
    description := "Please check your configuration and try again"
    variant := "destructive" }

/-- The `CreateProject` page state touched by `onSubmit`. -/
structure SubmitState where
  credentials : Option GitLabCredentials
  formValues : ProjectForm
  isLoading : Bool
  toasts : List Toast
deriving DecidableEq

/-- The `projectData` payload built at lines 214-221. -/
def buildProjectData (data : ProjectForm) (credentials : GitLabCredentials) :
    CreateProjectRequest :=
  let validServers := buildValidServers data.openshiftServers
  { name := data.name
    groupId := data.groupId
    projectType := data.projectType
    stack := data.stack
    openshiftServers := if hasAnyServer validServers then some validServers else none
    credentials := credentials }

/-- `onSubmit`: return early (sending nothing) without a credential;
otherwise build the payload, send the one `createProject` request, and on
the environment-supplied outcome either toast success and `form.reset()`
to the defaults, or catch the failure and toast the fixed generic
message, leaving the form values untouched.  The `finally` clause clears
the busy flag; the request actually sent is returned alongside the new
state. -/
def onSubmit (st : SubmitState) (data : ProjectForm)
    (remote : Except Unit Unit) : SubmitState × Option CreateProjectRequest :=
  match st.credentials with
  | none => (st, none)
  | some credentials =>
    let request := buildProjectData data credentials
    match remote with
    | .ok _ =>
      ({ st with formValues := formDefaults
                 toasts := st.toasts ++ [createdToast data.name]
                 isLoading := false }, some request)
    | .error _ =>
      ({ st with toasts := st.toasts ++ [failedToast]
                 isLoading := false }, some request)

/-! ## Login (`src/pages/Login.tsx`)

`onSubmit` (lines 36-73) is the mock-authentication path: the body in
force wraps a `setTimeout` that stores the entered pair, toasts success
and navigates; the call to `gitlabApi.validateCredentials` exists only
inside the `TODO` comment block (lines 51-72) and is never executed. -/

/-- The authentication-success toast (`Login.tsx` lines 43-46). -/
def authSuccessToast : Toast :=
  { title := "Authentication successful"
    description := "Welcome to GitLab Project Creator"
    variant := "default" }

/-- The session state around the login page: the credential store of the
auth context, the emitted toasts, the current route, and a log of every
`validateCredentials` request issued. -/
structure LoginState where
  credentials : Option GitLabCredentials
  toasts : List Toast
  route : String
  validateCalls : List GitLabCredentials
deriving DecidableEq

namespace Login

/-- `Login.onSubmit` as shipped: store the entered pair unconditionally,
toast success, navigate to the project page; no remote request of any
kind is issued. -/
def onSubmit (st : LoginState) (data : GitLabCredentials) : LoginState :=
  { st with credentials := some data
            toasts := st.toasts ++ [authSuccessToast]
            route := "/create-project" }

end Login

/-! ## Remaining derived definitions used by the theorems -/

/-- Deduplication with an explicit list of already-seen ids, the bridge
between the index-based JS filter and `dedupFirstById`: drop an element
whose `id` was already seen, otherwise keep it and record its `id`. -/
def seenFilter (seen : List Int) : List GitLabGroup → List GitLabGroup
  | [] => []
  | g :: rest =>
    if g.id ∈ seen then seenFilter seen rest
    else g :: seenFilter (seen ++ [g.id]) rest

/-- Look a deployment-target key up in the outbound request: `none` both
when the whole `openshiftServers` field was omitted and when the key is
absent from it. -/
def requestServersGet (r : CreateProjectRequest) (k : ServerKey) :
    Option ServerConfig :=
  match r.openshiftServers with
  | none => none
  | some s => s.get k

/-- The form state exercising the missing cross-field stack rule: a
non-delivery project type with no technology stack chosen and every other
field filled in. -/
def stackMissingForm : ProjectForm :=
  { name := "x"
    groupId := 1
    projectType := .library
    stack := none
    openshiftServers := some OpenshiftServers.empty }

/-! ## Helper lemmas -/

/-- A string has length at least one exactly when it is non-empty. -/
theorem one_le_string_length (s : String) : 1 ≤ s.length ↔ s ≠ "" := by
  cases s with
  | mk data =>
    cases data with
    | nil => simp [String.length]
    | cons c cs =>
      simp only [String.length, List.length_cons]
      constructor
      · intro _ h
        exact List.cons_ne_nil c cs (congrArg String.data h)
      · intro _
        exact Nat.succ_le_succ (Nat.zero_le _)

/-! ## C2 — login skips remote validation -/

/-- C2: the claim that submitting the login form authenticates the
credential pair against the remote `/validate` endpoint before storing it
fails on the shipped code: `Login.onSubmit` stores any entered pair,
toasts success and navigates to the project page while issuing no
`validateCredentials` request at all (the real call survives only inside
the `TODO` comment).  Evaluated at a pair the remote would reject. -/
theorem c2_login_grants_access_without_validation :
    (Login.onSubmit ⟨none, [], "/", []⟩ ⟨"user", "wrong-password"⟩).credentials
        = some ⟨"user", "wrong-password"⟩ ∧
    (Login.onSubmit ⟨none, [], "/", []⟩ ⟨"user", "wrong-password"⟩).route
        = "/create-project" ∧
    (Login.onSubmit ⟨none, [], "/", []⟩ ⟨"user", "wrong-password"⟩).validateCalls = [] :=
  ⟨rfl, rfl, rfl⟩

/-! ## C7 — deployment-target toggling -/

/-- C7: for every deployment-target key and every configuration state,
toggling the target on stores an entry with an empty namespace under that
key, toggling it off afterwards removes the key entirely, and either
toggle leaves every other key untouched. -/
theorem c7_toggleServer_on_off (s : OpenshiftServers) (k : ServerKey) :
    (toggleServer s k true).get k = some ⟨""⟩ ∧
    (toggleServer (toggleServer s k true) k false).get k = none ∧
    (∀ k', k' ≠ k → ∀ b, (toggleServer s k b).get k' = s.get k') := by
  refine ⟨?_, ?_, ?_⟩
  · cases k <;> rfl
  · cases k <;> rfl
  · intro k' hk b
    cases b <;> cases k <;> cases k' <;> first | rfl | exact absurd rfl hk

/-- Witness for C7 at the empty configuration and key `a`. -/
theorem c7_toggleServer_on_off_witness :
    (toggleServer OpenshiftServers.empty .a true).get .a = some ⟨""⟩ ∧
    (toggleServer (toggleServer OpenshiftServers.empty .a true) .a false).get .a = none ∧
    (toggleServer OpenshiftServers.empty .a true).get .b = OpenshiftServers.empty.get .b := by
  have h := c7_toggleServer_on_off OpenshiftServers.empty .a
  exact ⟨h.1, h.2.1, h.2.2 .b (by decide) true⟩

/-! ## C8 — common-groups load failure falls back locally -/

/-- C8: when the one-time remote common-groups request fails,
`loadGroups` recovers locally: the group list becomes the fixed 6-item
built-in placeholder list, the degraded-mode toast is emitted, the busy
flag ends cleared, and exactly one remote common-groups call was issued
(no retry).  `loadGroups` is a total function, so no exception escapes to
the caller. -/
theorem c8_loadGroups_fallback (st : LoadState) (c : GitLabCredentials)
    (h : st.credentials = some c) :
    (loadGroups st (.error ())).groups = mockGroups ∧
    mockGroups.length = 6 ∧
    (loadGroups st (.error ())).toasts = st.toasts ++ [offlineToast] ∧
    (loadGroups st (.error ())).loadingGroups = false ∧
    (loadGroups st (.error ())).commonCalls = st.commonCalls + 1 := by
  simp [loadGroups, h, mockGroups]

/-- Witness for C8 at a concrete pre-load state. -/
theorem c8_loadGroups_fallback_witness :
    (loadGroups ⟨some ⟨"u", "p"⟩, [], false, [], 0⟩ (.error ())).groups = mockGroups ∧
    mockGroups.length = 6 ∧
    (loadGroups ⟨some ⟨"u", "p"⟩, [], false, [], 0⟩ (.error ())).toasts
        = ([] : List Toast) ++ [offlineToast] ∧
    (loadGroups ⟨some ⟨"u", "p"⟩, [], false, [], 0⟩ (.error ())).loadingGroups = false ∧
    (loadGroups ⟨some ⟨"u", "p"⟩, [], false, [], 0⟩ (.error ())).commonCalls = 0 + 1 :=
  c8_loadGroups_fallback ⟨some ⟨"u", "p"⟩, [], false, [], 0⟩ ⟨"u", "p"⟩ rfl

/-! ## C10 — no credential, no dispatch -/

/-- C10: when the debounce timeout fires for a term of length at least 3
while no credential is held, the callback issues no remote search call
(the call log and the in-flight queue are unchanged), sets
`searchResults` to the empty sequence and clears the busy flag — the same
outcome as for a short term. -/
theorem c10_fireTimer_without_credential (st : EngineState) (t : String)
    (rest : List String) (hc : st.credentials = none) (ht : st.timers = t :: rest)
    (hlen : 3 ≤ t.length) :
    (fireTimer st).calls = st.calls ∧
    (fireTimer st).inFlight = st.inFlight ∧
    (fireTimer st).searchResults = [] ∧
    (fireTimer st).isSearching = false ∧
    (fireTimer st).cache = st.cache ∧
    (fireTimer st).timers = rest := by
  simp [fireTimer, ht, hc]

/-- Witness for C10 at a concrete state holding one pending timeout for
the term `"abc"` and no credential. -/
theorem c10_fireTimer_without_credential_witness :
    (fireTimer ⟨none, "abc", [], true, [], ["abc"], [], []⟩).calls = [] ∧
    (fireTimer ⟨none, "abc", [], true, [], ["abc"], [], []⟩).inFlight = [] ∧
    (fireTimer ⟨none, "abc", [], true, [], ["abc"], [], []⟩).searchResults = [] ∧
    (fireTimer ⟨none, "abc", [], true, [], ["abc"], [], []⟩).isSearching = false ∧
    (fireTimer ⟨none, "abc", [], true, [], ["abc"], [], []⟩).cache = [] ∧
    (fireTimer ⟨none, "abc", [], true, [], ["abc"], [], []⟩).timers = [] :=
  c10_fireTimer_without_credential ⟨none, "abc", [], true, [], ["abc"], [], []⟩
    "abc" [] rfl rfl (by decide)

/-! ## C1 — the debounce never cancels -/

/-- C1: the claim that each call to the search-change handler cancels any
pending scheduled search fails on the shipped code: `debouncedSearch`
returns its `clearTimeout` closure but `handleSearchChange` discards it,
so two rapid keystrokes `"abc"`, `"abcd"` leave two live timeouts, both
fire, and two remote search calls are issued — one for the superseded
term.  Moreover nothing discards a late response: resolving the
`"abcd"` fetch first and the stale `"abc"` fetch second leaves the stale
results applied to `searchResults`. -/
theorem c1_debounce_issues_two_calls :
    (engineRun (initEngine (some ⟨"u", "p"⟩))
      [.input "abc", .input "abcd", .fire, .fire]).calls = ["abc", "abcd"] ∧
    (engineRun (initEngine (some ⟨"u", "p"⟩))
      [.input "abc", .input "abcd", .fire, .fire,
       .response 1 (.ok [⟨40, "newer", "company/newer"⟩]),
       .response 0 (.ok [⟨10, "stale", "company/stale"⟩])]).searchResults
      = [⟨10, "stale", "company/stale"⟩] := by
  constructor <;> rfl

/-! ## C6 — the cache under repeated searches -/

/-- C6: the claim fails on the code in both halves.  First, if the remote
call for a term fails, nothing is cached, so executing the same search
again issues a second remote call — two calls for one term.  Second,
because pending timeouts are never cancelled, two quick executions for
the same term both miss the cache before either response lands, and the
second response overwrites the cache entry written by the first — the
entry for `"abc"` first holds one list, then a different one. -/
theorem c6_cache_counterexample :
    (engineRun (initEngine (some ⟨"u", "p"⟩))
      [.input "abc", .fire, .response 0 (.error ()), .input "abc", .fire]).calls
      = ["abc", "abc"] ∧
    cacheGet (engineRun (initEngine (some ⟨"u", "p"⟩))
      [.input "abc", .input "abc", .fire, .fire,
       .response 0 (.ok [⟨1, "first", "company/first"⟩])]).cache "abc"
      = some [⟨1, "first", "company/first"⟩] ∧
    cacheGet (engineRun (initEngine (some ⟨"u", "p"⟩))
      [.input "abc", .input "abc", .fire, .fire,
       .response 0 (.ok [⟨1, "first", "company/first"⟩]),
       .response 0 (.ok [⟨2, "second", "company/second"⟩])]).cache "abc"
      = some [⟨2, "second", "company/second"⟩] := by
  refine ⟨?_, ?_, ?_⟩ <;> rfl

/-- C6 amended: for every term of length at least 3, if the first
execution's remote call succeeds and its response arrives before the
search is executed again, then the two executions issue exactly one
remote call in total; the second execution is served from the cache with
content identical to the first result, and the cache entry still holds
exactly that first result. -/
theorem c6_cache_sequential (creds : GitLabCredentials) (t : String)
    (r : List GitLabGroup) (ht : 3 ≤ t.length) :
    (engineRun (initEngine (some creds))
      [.input t, .fire, .response 0 (.ok r), .input t, .fire]).calls = [t] ∧
    (engineRun (initEngine (some creds))
      [.input t, .fire, .response 0 (.ok r), .input t, .fire]).searchResults = r ∧
    cacheGet (engineRun (initEngine (some creds))
      [.input t, .fire, .response 0 (.ok r), .input t, .fire]).cache t = some r ∧
    (engineRun (initEngine (some creds))
      [.input t, .fire, .response 0 (.ok r), .input t, .fire]).isSearching = false := by
  simp [engineRun, engineStep, handleSearchChange, fireTimer, resolveResponse,
    initEngine, cacheGet, cacheSet, ht]

/-- Witness for the amended C6 at the term `"abc"` and a one-element
result list. -/
theorem c6_cache_sequential_witness :
    (engineRun (initEngine (some ⟨"u", "p"⟩))
      [.input "abc", .fire, .response 0 (.ok [⟨7, "g", "company/g"⟩]), .input "abc",
       .fire]).calls = ["abc"] ∧
    (engineRun (initEngine (some ⟨"u", "p"⟩))
      [.input "abc", .fire, .response 0 (.ok [⟨7, "g", "company/g"⟩]), .input "abc",
       .fire]).searchResults = [⟨7, "g", "company/g"⟩] ∧
    cacheGet (engineRun (initEngine (some ⟨"u", "p"⟩))
      [.input "abc", .fire, .response 0 (.ok [⟨7, "g", "company/g"⟩]), .input "abc",
       .fire]).cache "abc" = some [⟨7, "g", "company/g"⟩] ∧
    (engineRun (initEngine (some ⟨"u", "p"⟩))
      [.input "abc", .fire, .response 0 (.ok [⟨7, "g", "company/g"⟩]), .input "abc",
       .fire]).isSearching = false :=
  c6_cache_sequential ⟨"u", "p"⟩ "abc" [⟨7, "g", "company/g"⟩] (by decide)

/-! ## C3 — what local validation actually checks -/

/-- Zod's per-entry check accepts an entry exactly when its namespace,
if the entry is present, is non-empty. -/
theorem entryValid_iff (e : Option ServerConfig) :
    entryValid e = true ↔ ∀ cfg, e = some cfg → cfg.nspace ≠ "" := by
  cases e with
  | none => simp [entryValid]
  | some cfg => simp [entryValid, one_le_string_length]

/-- C3: the claim that local validation blocks submission when the
technology stack is absent while the project type requires one fails on
the code: `stack` is declared `.optional()` in `projectSchema` with no
cross-field rule, so this fully-filled `library`-type form with no stack
passes validation and submission proceeds. -/
theorem c3_stack_never_blocks :
    projectSchemaValid stackMissingForm = true ∧
    stackMissingForm.stack = none ∧
    stackMissingForm.projectType ≠ ProjectType.delivery ∧
    stackMissingForm.name ≠ "" ∧
    1 ≤ stackMissingForm.groupId := by
  refine ⟨by decide, rfl, by decide, by decide, by decide⟩

/-- C3 amended: `projectSchema` accepts the form values — so submission
proceeds to the remote call — exactly when the project name is non-empty,
a group is selected (`groupId ≥ 1`), and every present deployment-target
entry has a non-empty namespace.  The project type is always one of the
four enum values by construction, and the technology stack is optional:
its absence never blocks submission, whatever the project type. -/
theorem c3_validation_characterization (f : ProjectForm) :
    projectSchemaValid f = true ↔
      (f.name ≠ "" ∧ 1 ≤ f.groupId ∧
        ∀ s, f.openshiftServers = some s →
          ∀ k cfg, s.get k = some cfg → cfg.nspace ≠ "") := by
  rcases f with ⟨name, gid, pt, stk, servers⟩
  simp only [projectSchemaValid, Bool.and_eq_true, decide_eq_true_eq,
    one_le_string_length]
  cases servers with
  | none => simp [openshiftServersValid, and_assoc]
  | some s =>
    rcases s with ⟨a, b, c, d⟩
    simp only [openshiftServersValid, Bool.and_eq_true, entryValid_iff,
      Option.some.injEq, and_assoc]
    constructor
    · rintro ⟨hn, hg, ha, hb, hc, hd⟩
      refine ⟨hn, hg, ?_⟩
      rintro s rfl k cfg hk
      cases k
      · exact ha cfg hk
      · exact hb cfg hk
      · exact hc cfg hk
      · exact hd cfg hk
    · rintro ⟨hn, hg, h⟩
      refine ⟨hn, hg, ?_, ?_, ?_, ?_⟩
      · exact fun cfg hcfg => h _ rfl .a cfg hcfg
      · exact fun cfg hcfg => h _ rfl .b cfg hcfg
      · exact fun cfg hcfg => h _ rfl .c cfg hcfg
      · exact fun cfg hcfg => h _ rfl .d cfg hcfg

/-! ## C9 — submission outcomes and namespace trimming -/

/-- Looking a key up in the outbound payload is looking it up through the
`validServers` filter: entries absent from the form, dropped by the
blank-namespace filter, or elided with the whole mapping when no entry
survives, are all `none`. -/
theorem requestServersGet_payload (data : ProjectForm) (c : GitLabCredentials)
    (k : ServerKey) :
    requestServersGet (buildProjectData data c) k
      = filterEntry ((data.openshiftServers.getD OpenshiftServers.empty).get k) := by
  rcases data with ⟨name, gid, pt, stk, servers⟩
  cases servers with
  | none => cases k <;> rfl
  | some s =>
    rcases s with ⟨a, b, c', d⟩
    simp only [Option.getD_some]
    unfold requestServersGet buildProjectData buildValidServers
    by_cases h :
        hasAnyServer ⟨filterEntry a, filterEntry b, filterEntry c', filterEntry d⟩ = true
    · simp only [h, if_true]
      cases k <;> rfl
    · simp only [h, if_false, Bool.false_eq_true]
      simp only [hasAnyServer, Bool.or_eq_true, Option.isSome_iff_exists,
        not_or, not_exists] at h
      obtain ⟨⟨⟨ha, hb⟩, hc⟩, hd⟩ := h
      cases k
      · cases fa : filterEntry a with
        | none => exact fa.symm
        | some v => exact absurd fa (ha v)
      · cases fb : filterEntry b with
        | none => exact fb.symm
        | some v => exact absurd fb (hb v)
      · cases fc : filterEntry c' with
        | none => exact fc.symm
        | some v => exact absurd fc (hc v)
      · cases fd : filterEntry d with
        | none => exact fd.symm
        | some v => exact absurd fd (hd v)

/-- C9: for every submission attempt made with a credential present, the
outbound request is always the packaged `projectData`; on remote success
the form values are reset to the defaults; on remote failure the entered
values are retained unchanged and only the fixed generic
check-your-configuration toast is emitted; and every deployment-target
entry whose namespace is blank after trimming is absent from the outbound
request.  The busy flag ends cleared on both paths. -/
theorem c9_onSubmit_outcomes (st : SubmitState) (data : ProjectForm)
    (c : GitLabCredentials) (h : st.credentials = some c) :
    (onSubmit st data (.ok ())).1.formValues = formDefaults ∧
    (onSubmit st data (.error ())).1.formValues = st.formValues ∧
    (onSubmit st data (.error ())).1.toasts = st.toasts ++ [failedToast] ∧
    (∀ remote, (onSubmit st data remote).2 = some (buildProjectData data c) ∧
      (onSubmit st data remote).1.isLoading = false) ∧
    (∀ k cfg, (data.openshiftServers.getD OpenshiftServers.empty).get k = some cfg →
      jsTrim cfg.nspace = "" → requestServersGet (buildProjectData data c) k = none) := by
  refine ⟨?_, ?_, ?_, ?_, ?_⟩
  · simp [onSubmit, h]
  · simp [onSubmit, h]
  · simp [onSubmit, h]
  · intro remote
    cases remote <;> simp [onSubmit, h]
  · intro k cfg hget htrim
    rw [requestServersGet_payload, hget]
    simp [filterEntry, htrim]

/-- Witness for C9 at a concrete state and a form whose target `a` has a
blank (whitespace-only) namespace and whose target `b` has a real one. -/
theorem c9_onSubmit_outcomes_witness :
    (onSubmit ⟨some ⟨"u", "p"⟩, formDefaults, true, []⟩
      ⟨"proj", 1, .monorepo, some .maven, some ⟨some ⟨" "⟩, some ⟨"ns"⟩, none, none⟩⟩
      (.ok ())).1.formValues = formDefaults ∧
    (onSubmit ⟨some ⟨"u", "p"⟩, formDefaults, true, []⟩
      ⟨"proj", 1, .monorepo, some .maven, some ⟨some ⟨" "⟩, some ⟨"ns"⟩, none, none⟩⟩
      (.error ())).1.formValues = formDefaults ∧
    (onSubmit ⟨some ⟨"u", "p"⟩, formDefaults, true, []⟩
      ⟨"proj", 1, .monorepo, some .maven, some ⟨some ⟨" "⟩, some ⟨"ns"⟩, none, none⟩⟩
      (.error ())).1.toasts = ([] : List Toast) ++ [failedToast] ∧
    (onSubmit ⟨some ⟨"u", "p"⟩, formDefaults, true, []⟩
      ⟨"proj", 1, .monorepo, some .maven, some ⟨some ⟨" "⟩, some ⟨"ns"⟩, none, none⟩⟩
      (.ok ())).2 = some (buildProjectData
        ⟨"proj", 1, .monorepo, some .maven, some ⟨some ⟨" "⟩, some ⟨"ns"⟩, none, none⟩⟩
        ⟨"u", "p"⟩) ∧
    requestServersGet (buildProjectData
        ⟨"proj", 1, .monorepo, some .maven, some ⟨some ⟨" "⟩, some ⟨"ns"⟩, none, none⟩⟩
        ⟨"u", "p"⟩) .a = none := by
  have h := c9_onSubmit_outcomes ⟨some ⟨"u", "p"⟩, formDefaults, true, []⟩
    ⟨"proj", 1, .monorepo, some .maven, some ⟨some ⟨" "⟩, some ⟨"ns"⟩, none, none⟩⟩
    ⟨"u", "p"⟩ rfl
  exact ⟨h.1, h.2.1, h.2.2.1, (h.2.2.2.1 (.ok ())).1,
    h.2.2.2.2 .a ⟨" "⟩ rfl (by decide)⟩

/-! ## C4 — the display set computation

The substantive step is that the JS index-based filter
`self.findIndex(...) === index` is exactly first-occurrence
deduplication by `id`. -/

/-- `findIdx` lands exactly on the head of the appended suffix iff the
predicate fails on all of the prefix (assuming it holds at that head). -/
theorem findIdx_append_eq_length_iff (p : GitLabGroup → Bool)
    (pre : List GitLabGroup) (g : GitLabGroup) (rs : List GitLabGroup)
    (hg : p g = true) :
    List.findIdx p (pre ++ g :: rs) = pre.length ↔ ∀ x ∈ pre, p x = false := by
  induction pre with
  | nil => simp [List.findIdx_cons, hg]
  | cons x pre ih =>
    simp only [List.cons_append, List.findIdx_cons, List.length_cons]
    cases hx : p x with
    | true => simp [hx]
    | false => simp [hx, ih]

/-- `seenFilter` only looks at the membership content of `seen`. -/
theorem seenFilter_congr (l : List GitLabGroup) :
    ∀ seen seen', (∀ x, x ∈ seen ↔ x ∈ seen') →
      seenFilter seen l = seenFilter seen' l := by
  induction l with
  | nil => intro seen seen' _; rfl
  | cons g rs ih =>
    intro seen seen' h
    simp only [seenFilter]
    by_cases hg : g.id ∈ seen
    · rw [if_pos hg, if_pos ((h g.id).mp hg)]
      exact ih seen seen' h
    · rw [if_neg hg, if_neg (fun c => hg ((h g.id).mpr c))]
      congr 1
      refine ih (seen ++ [g.id]) (seen' ++ [g.id]) ?_
      intro x
      simp [List.mem_append, h x]

/-- Running the JS filter from position `pre.length` of `pre ++ rest`
computes `seenFilter` of `rest` with the ids of `pre` already seen. -/
theorem jsUniqueGo_spec (rest : List GitLabGroup) :
    ∀ pre, jsUniqueGo (pre ++ rest) rest pre.length
      = seenFilter (pre.map GitLabGroup.id) rest := by
  induction rest with
  | nil => intro pre; rfl
  | cons g rs ih =>
    intro pre
    simp only [jsUniqueGo, seenFilter]
    have hg : (fun h => h.id == g.id) g = true := by simp
    have hiff := findIdx_append_eq_length_iff (fun h => h.id == g.id) pre g rs hg
    have hassoc : pre ++ g :: rs = (pre ++ [g]) ++ rs := by simp
    have hlen : pre.length + 1 = (pre ++ [g]).length := by simp
    by_cases hmem : g.id ∈ pre.map GitLabGroup.id
    · have hne : ¬ List.findIdx (fun h => h.id == g.id) (pre ++ g :: rs) = pre.length := by
        rw [hiff]
        intro hall
        obtain ⟨x, hx, hxid⟩ := List.mem_map.mp hmem
        have := hall x hx
        simp [hxid] at this
      rw [if_neg hne, if_pos hmem, hassoc, hlen, ih (pre ++ [g])]
      refine seenFilter_congr rs _ _ ?_
      intro x
      simp only [List.map_append, List.map_cons, List.map_nil, List.mem_append,
        List.mem_singleton]
      constructor
      · rintro (h | h)
        · exact h
        · exact h ▸ hmem
      · intro h
        exact Or.inl h
    · have heq : List.findIdx (fun h => h.id == g.id) (pre ++ g :: rs) = pre.length := by
        rw [hiff]
        intro x hx
        simp only [beq_eq_false_iff_ne, ne_eq]
        intro hxid
        exact hmem (List.mem_map.mpr ⟨x, hx, hxid⟩)
      rw [if_pos heq, if_neg hmem]
      congr 1
      rw [hassoc, hlen, ih (pre ++ [g])]
      congr 1
      simp

/-- The two defining equations of `dedupFirstById`, stated for rewriting
(the function is defined by well-founded recursion). -/
theorem dedupFirstById_nil : dedupFirstById [] = [] := by
  rw [dedupFirstById.eq_def]

/-- The cons equation of `dedupFirstById`. -/
theorem dedupFirstById_cons (g : GitLabGroup) (rest : List GitLabGroup) :
    dedupFirstById (g :: rest)
      = g :: dedupFirstById (rest.filter (fun h => !(h.id == g.id))) := by
  rw [dedupFirstById.eq_def]

/-- `seenFilter` is first-occurrence deduplication of the elements whose
ids are not already seen. -/
theorem seenFilter_eq_dedupFirstById (l : List GitLabGroup) :
    ∀ seen, seenFilter seen l
      = dedupFirstById (l.filter (fun h => decide (h.id ∉ seen))) := by
  induction l with
  | nil => intro seen; rw [List.filter_nil, dedupFirstById_nil]; rfl
  | cons g rs ih =>
    intro seen
    simp only [seenFilter, List.filter_cons]
    by_cases hg : g.id ∈ seen
    · rw [if_pos hg]
      simp only [hg, not_true_eq_false, Bool.false_eq_true, if_false, decide_False]
      exact ih seen
    · rw [if_neg hg]
      simp only [hg, not_false_eq_true, if_true, decide_True]
      rw [dedupFirstById_cons]
      congr 1
      rw [ih (seen ++ [g.id]), List.filter_filter]
      congr 1
      apply List.filter_congr
      intro x _
      by_cases h1 : x.id ∈ seen <;> by_cases h2 : x.id = g.id <;>
        simp [h1, h2, List.mem_append]

/-- The JS index-based deduplication filter is exactly first-occurrence
deduplication by `id`. -/
theorem jsUniqueFilter_eq_dedupFirstById (l : List GitLabGroup) :
    jsUniqueFilter l = dedupFirstById l := by
  have h0 := jsUniqueGo_spec l []
  simp only [List.nil_append, List.map_nil, List.length_nil] at h0
  rw [jsUniqueFilter, h0, seenFilter_eq_dedupFirstById]
  congr 1
  simp

/-- C4: `resolveDisplaySet` is the stated pure function of the state: for
a term of length below 3 it is the common groups unmodified in order; for
a longer term it is the common groups whose `full_path` case-insensitively
contains the term, followed by the search results, deduplicated by `id`
keeping the first occurrence — so a common-group match precedes (and
displaces) a search hit with the same `id`. -/
theorem c4_displayGroups_characterization (groups searchResults : List GitLabGroup)
    (searchTerm : String) :
    displayGroups groups searchResults searchTerm =
      if 3 ≤ searchTerm.length then
        dedupFirstById
          (groups.filter (fun g => strIncludes g.full_path.toLower searchTerm.toLower)
            ++ searchResults)
      else groups := by
  unfold displayGroups
  by_cases h : 3 ≤ searchTerm.length <;>
    simp [h, jsUniqueFilter_eq_dedupFirstById]

/-! ## C5 — uniqueness of ids in the display set -/

/-- C5: the claim fails as stated for terms of length below 3: the code
returns `commonGroups` unmodified on that branch, so a state whose common
groups hold two entries with the same `id` (nothing in the code
deduplicates the server's common-groups response) yields a display set
with a duplicated `id`. -/
theorem c5_short_term_keeps_duplicates :
    ¬ ((displayGroups [⟨1, "x", "company/x"⟩, ⟨1, "y", "company/y"⟩] [] "").map
        GitLabGroup.id).Nodup := by
  decide

/-- Every element of the deduplicated list comes from the original
list. -/
theorem mem_of_mem_dedupFirstById (l : List GitLabGroup) :
    ∀ x ∈ dedupFirstById l, x ∈ l := by
  induction l using dedupFirstById.induct with
  | case1 => simp [dedupFirstById_nil]
  | case2 g rest ih =>
    intro x hx
    rw [dedupFirstById_cons] at hx
    rcases List.mem_cons.mp hx with h | h
    · exact h ▸ List.mem_cons_self g rest
    · exact List.mem_cons_of_mem g (List.mem_of_mem_filter (ih x h))

/-- First-occurrence deduplication leaves pairwise-distinct ids. -/
theorem dedupFirstById_id_nodup (l : List GitLabGroup) :
    ((dedupFirstById l).map GitLabGroup.id).Nodup := by
  induction l using dedupFirstById.induct with
  | case1 => simp [dedupFirstById_nil]
  | case2 g rest ih =>
    rw [dedupFirstById_cons]
    simp only [List.map_cons, List.nodup_cons]
    refine ⟨?_, ih⟩
    intro hmem
    obtain ⟨x, hx, hxid⟩ := List.mem_map.mp hmem
    have hx' := mem_of_mem_dedupFirstById _ x hx
    have hp := List.of_mem_filter hx'
    simp [hxid] at hp

/-- C5 amended: provided the common groups carry pairwise-distinct ids —
the data model declares `id` unique, and nothing else is required of the
search results or the term — the resolved display set never contains two
entries with the same `id`.  (For terms of length at least 3 the
deduplication step makes this hold even without the proviso; for shorter
terms the common groups are returned as-is, so their own uniqueness is
exactly what is needed.) -/
theorem c5_display_set_nodup (groups searchResults : List GitLabGroup)
    (searchTerm : String) (h : (groups.map GitLabGroup.id).Nodup) :
    ((displayGroups groups searchResults searchTerm).map GitLabGroup.id).Nodup := by
  unfold displayGroups
  by_cases hlen : 3 ≤ searchTerm.length
  · simp only [hlen, if_true]
    rw [jsUniqueFilter_eq_dedupFirstById]
    exact dedupFirstById_id_nodup _
  · simp only [hlen, if_false]
    exact h

/-- Witness for the amended C5: distinct-id common groups, a search
result that collides with a common group on `id`, and a long term. -/
theorem c5_display_set_nodup_witness :
    (([⟨1, "frontend-team", "company/frontend-team"⟩,
       ⟨4, "platform-team", "company/platform-team"⟩] :
        List GitLabGroup).map GitLabGroup.id).Nodup ∧
    ((displayGroups
        [⟨1, "frontend-team", "company/frontend-team"⟩,
         ⟨4, "platform-team", "company/platform-team"⟩]
        [⟨4, "platform-team", "company/platform-team"⟩, ⟨9, "other", "company/other"⟩]
        "platform").map GitLabGroup.id).Nodup :=
  ⟨by decide,
   c5_display_set_nodup
     [⟨1, "frontend-team", "company/frontend-team"⟩,
      ⟨4, "platform-team", "company/platform-team"⟩]
     [⟨4, "platform-team", "company/platform-team"⟩, ⟨9, "other", "company/other"⟩]
     "platform" (by decide)⟩

/-- Witness for the amended C3 at the stack-less library form: the
characterization applied right-to-left at a concrete input. -/
theorem c3_validation_characterization_witness :
    projectSchemaValid stackMissingForm = true :=
  (c3_validation_characterization stackMissingForm).mpr
    ⟨by decide, by decide, by
      intro s hs k cfg hk
      have hse : OpenshiftServers.empty = s := Option.some.inj hs
      rw [← hse] at hk
      cases k <;> exact Option.noConfusion hk⟩
